import Mathlib

/-!
Verification development for the Spotify family-subscription bot.

The definitions below are a shallow embedding of the repository's code:
the ledger store `app/tools/db.py` (tables `users`, `groups`, `payments`
modelled as Lean lists, each SQL statement modelled by the corresponding
list transformation), the date arithmetic performed with
`dateutil.relativedelta`, and the dialogue handlers of
`app/routers/admin.py` (aiogram finite-state-machine states modelled as an
inductive type, the per-session accumulator as a structure of optional
fields).
-/

/-- Python `datetime`: proleptic Gregorian calendar date plus a
time-of-day measured in seconds (`sec`).  `add_group`/`add_payments`
receive midnight datetimes parsed with `strptime('%Y-%m-%d')`, while
`datetime.now()` carries an arbitrary time of day, so the time component
is kept. -/
structure PyDateTime where
  year : Int
  month : Int
  day : Int
  sec : Nat
deriving DecidableEq, Repr

/-- Python datetime comparison: lexicographic on
(year, month, day, time-of-day). -/
def pyLtB (a b : PyDateTime) : Bool :=
  a.year < b.year ||
  (a.year == b.year && (a.month < b.month ||
    (a.month == b.month && (a.day < b.day ||
      (a.day == b.day && a.sec < b.sec)))))

/-- Gregorian leap-year test, as in Python's `calendar.isleap`. -/
def isLeap (y : Int) : Bool :=
  (Int.emod y 4 == 0 && Int.emod y 100 != 0) || Int.emod y 400 == 0

/-- Number of days in a month (`calendar.monthrange`, used by
`dateutil` when clamping a day-of-month that overflows). -/
def daysInMonth (y m : Int) : Int :=
  if m == 2 then (if isLeap y then 29 else 28)
  else if m == 4 || m == 6 || m == 9 || m == 11 then 30
  else 31

/-- Model of `dt + relativedelta(months=n)`: `relativedelta.__init__` normalises
the month count into years plus a remainder in [-11, 11] (`_fix`) and
`__radd__` adds both and renormalises the month into 1..12, which
together amount to floor-division normalisation of the zero-based month;
the day is then clamped to the target month's length. -/
def addMonths (dt : PyDateTime) (n : Int) : PyDateTime :=
  let m0 := dt.month - 1 + n
  let y := dt.year + Int.ediv m0 12
  let m := Int.emod m0 12 + 1
  { year := y, month := m, day := min dt.day (daysInMonth y m), sec := dt.sec }

/-- One correction loop of `relativedelta(dt1, dt2)` for the `dt1 < dt2`
branch: while `dt1 > dt2 + months`, increment `months`.  The loop runs at
most twice, so any fuel of that size is exact; 24 is used. -/
def adjustUp (dt1 dt2 : PyDateTime) : Nat → Int → Int
  | 0, months => months
  | fuel + 1, months =>
    if pyLtB (addMonths dt2 months) dt1 then adjustUp dt1 dt2 fuel (months + 1)
    else months

/-- One correction loop of `relativedelta(dt1, dt2)` for the `dt1 >= dt2`
branch: while `dt1 < dt2 + months`, decrement `months`. -/
def adjustDown (dt1 dt2 : PyDateTime) : Nat → Int → Int
  | 0, months => months
  | fuel + 1, months =>
    if pyLtB dt1 (addMonths dt2 months) then adjustDown dt1 dt2 fuel (months - 1)
    else months

/-- The total whole-month component of `relativedelta(dt1, dt2)`, i.e.
`delta.years * 12 + delta.months`: start from the raw year/month
difference and correct until `dt2 + months` does not overshoot `dt1`
(dateutil's while-loop, here with ample fuel). -/
def monthsBetween (dt1 dt2 : PyDateTime) : Int :=
  let m0 := (dt1.year - dt2.year) * 12 + (dt1.month - dt2.month)
  if pyLtB dt1 dt2 then adjustUp dt1 dt2 24 m0 else adjustDown dt1 dt2 24 m0

/-- The date-rollover block shared by `Database.add_group` and
`Database.add_payments` (`app/tools/db.py`):

    if payment_at < datetime.now():
        delta = relativedelta(payment_at, datetime.now())
        total_months = delta.years * 12 + delta.months + 1
        payment_at += relativedelta(months=total_months)
-/
def rollover (payment_at now : PyDateTime) : PyDateTime :=
  if pyLtB payment_at now then
    addMonths payment_at (monthsBetween payment_at now + 1)
  else payment_at

/-- Days since 1970-01-01 of a datetime's calendar date (proleptic
Gregorian civil-day number); gives meaning to SQL `CURRENT_DATE`
subtraction and `payment_at::date`. -/
def dayNumber (dt : PyDateTime) : Int :=
  let y := if dt.month ≤ 2 then dt.year - 1 else dt.year
  let era := Int.fdiv y 400
  let yoe := y - era * 400
  let mp := Int.emod (dt.month + 9) 12
  let doy := Int.fdiv (153 * mp + 2) 5 + dt.day - 1
  let doe := yoe * 365 + Int.fdiv yoe 4 - Int.fdiv yoe 100 + doy
  era * 146097 + doe - 719468

/-- Python `str.replace('@', '')`: removes every `'@'` character. -/
def py_replace_at (s : String) : String :=
  ⟨s.data.filter (fun c => c != '@')⟩

/-- SQL `LOWER` / the lower-casing applied to group names. -/
def pyLowerStr (s : String) : String :=
  ⟨s.data.map Char.toLower⟩

/-- Python `str.strip()` whitespace test. -/
def isPySpace (c : Char) : Bool :=
  c == ' ' || c == '\t' || c == '\n' || c == '\r' || c == '\x0b' || c == '\x0c'

/-- Python `str.strip()`. -/
def pyStrip (s : String) : String :=
  ⟨((s.data.dropWhile isPySpace).reverse.dropWhile isPySpace).reverse⟩

/-- Python `str.lower()` on a message (ASCII usage in the handlers). -/
def pyLower (s : String) : String := pyLowerStr s

/-! ## Ledger state: the three tables of `Database.initialize` -/

/-- A row of the `users` table. -/
structure UserRow where
  user_id : Int
  username : String
deriving DecidableEq, Repr

/-- A row of the `groups` table. -/
structure GroupRow where
  group_id : Int
  group_name : String
  payment_at : PyDateTime
deriving DecidableEq, Repr

/-- A row of the `payments` table. -/
structure PaymentRow where
  group_id : Int
  user_id : Int
  payment_at : PyDateTime
  paid_on : PyDateTime
deriving DecidableEq, Repr

/-- The ledger: the three tables. -/
structure DBState where
  users : List UserRow
  groups : List GroupRow
  payments : List PaymentRow
deriving DecidableEq, Repr

def emptyDB : DBState := ⟨[], [], []⟩

/-- Model of `Database.connect` (`app/tools/db.py` and `app/db.py`): attempt
`aiopg.create_pool`; on any exception the pool attribute is left as it
was (errors are swallowed after logging); finally `return self.pool is
None`.  `attempt` is `some pool` when `create_pool` succeeds and `none`
when it raises. -/
def connect {α : Type} (pool attempt : Option α) : Bool × Option α :=
  let newPool := match attempt with
    | some p => some p
    | none => pool
  (newPool.isNone, newPool)

/-- Model of `Database.add_user`: INSERT with `username.replace('@', '')`; the
`user_id` primary key and `username` UNIQUE constraint make the INSERT
raise on a duplicate, which is caught and reported through
`cursor.rowcount > 0`. -/
def add_user (db : DBState) (user_id : Int) (username : String) : Bool × DBState :=
  let uname := py_replace_at username
  if db.users.any (fun u => u.user_id == user_id || u.username == uname) then
    (false, db)
  else
    (true, { db with users := db.users ++ [⟨user_id, uname⟩] })

/-- Model of `Database.get_user_by_name`: SELECT by
`username = %s` with the argument passed through `replace('@', '')`. -/
def get_user_by_name (db : DBState) (username : String) : Option UserRow :=
  db.users.find? (fun u => u.username == py_replace_at username)

/-- The lookup the specification describes instead: normalisation that
strips only a single leading `'@'`.  Declared from the spec's words for
comparison against `get_user_by_name`, which removes every `'@'`. -/
def strip_leading_at_spec (s : String) : String :=
  match s.data with
  | '@' :: rest => ⟨rest⟩
  | _ => s

/-- Username lookup as the specification words it (strip one leading
`'@'`, then compare case-sensitively with the stored value). -/
def get_user_by_name_spec (db : DBState) (username : String) : Option UserRow :=
  db.users.find? (fun u => u.username == strip_leading_at_spec username)

/-- Model of `Database.update_username`: `new_username.replace('@', '')` — for a
`None` argument the attribute access raises inside the `try`, the
exception is caught, and `cursor.rowcount` (still -1, no statement was
executed) makes the function return `False` without writing.  For a
string (empty included) the UPDATE is attempted unconditionally; when it
would give a matched row a username a different row already holds, the
`username` UNIQUE constraint makes it raise instead, the exception is
caught, and `rowcount > 0` (rowcount stays -1) reports failure with no
row changed. -/
def update_username (db : DBState) (user_id : Int) (new_username : Option String) :
    Bool × DBState :=
  match new_username with
  | none => (false, db)
  | some s =>
    if db.users.any (fun u => u.user_id == user_id) &&
        db.users.any (fun u => u.user_id != user_id && u.username == py_replace_at s) then
      (false, db)
    else
      (db.users.any (fun u => u.user_id == user_id),
       { db with users := db.users.map (fun u =>
           if u.user_id == user_id then { u with username := py_replace_at s } else u) })

/-- Model of `Database.add_group` (`app/tools/db.py`): roll `payment_at` with the
`relativedelta` block, then
`INSERT INTO groups (group_id, group_name, payment_at) VALUES (%s, LOWER(%s), %s)`;
a duplicate `group_id` (primary key) or lower-cased `group_name` (UNIQUE)
makes the INSERT raise, the exception is caught, and `rowcount > 0`
reports failure. -/
def add_group (now : PyDateTime) (db : DBState) (group_id : Int) (group_name : String)
    (payment_at : PyDateTime) : Bool × DBState :=
  let pa := rollover payment_at now
  let gname := pyLowerStr group_name
  if db.groups.any (fun g => g.group_id == group_id || g.group_name == gname) then
    (false, db)
  else
    (true, { db with groups := db.groups ++ [⟨group_id, gname, pa⟩] })

/-- Model of `isinstance(x, str)` for an optional-string argument: true exactly on
strings, false on `None`. -/
def isinstance_str (x : Option String) : Bool := x.isSome

/-- Model of `Database.update_group_name` (`app/tools/db.py`): the guard is

    if isinstance(new_group_name, str) or len(new_group_name) == 0:
        ... return False

so every string argument takes the early-failure branch; for `None` the
`isinstance` test is false and `len(None)` raises an uncaught
`TypeError` (modelled as `none`).  The UPDATE below the guard stores
`LOWER(%s)` and reports `rowcount > 0`. -/
def update_group_name (db : DBState) (group_id : Int) (new_group_name : Option String) :
    Option (Bool × DBState) :=
  match new_group_name with
  | none => none
  | some s =>
    if isinstance_str (some s) || s.length == 0 then
      some (false, db)
    else
      some (db.groups.any (fun g => g.group_id == group_id),
        { db with groups := db.groups.map (fun g =>
            if g.group_id == group_id then { g with group_name := pyLowerStr s } else g) })

/-- Model of `Database.add_payments` (`app/tools/db.py`), the ledger operation
behind `Admin.link_user_to_group`: the same rollover block as
`add_group`, then
`INSERT INTO payments (user_id, group_id, payment_at) VALUES (%s, %s, %s)`;
the `user_id` UNIQUE constraint (which subsumes the `(group_id,
user_id)` primary key) and the two foreign keys make the INSERT raise on
violation, reported through `rowcount > 0`.  `paid_on` defaults to
`CURRENT_TIMESTAMP`. -/
def add_payments (now : PyDateTime) (db : DBState) (user_id group_id : Int)
    (payment_at : PyDateTime) : Bool × DBState :=
  let pa := rollover payment_at now
  if db.payments.any (fun p => p.user_id == user_id)
      || !(db.users.any (fun u => u.user_id == user_id))
      || !(db.groups.any (fun g => g.group_id == group_id)) then
    (false, db)
  else
    (true, { db with payments := db.payments ++ [⟨group_id, user_id, pa, now⟩] })

/-- Whether the UPDATE statement of `Database.mark_payment` is accepted
by the SQL server.  The statement reads

    UPDATE payments
    SET payment_at = payment_at + (%s || ' months')::INTERVAL
        paid_on = %s
    WHERE user_id = %s

with no comma between the `payment_at` and `paid_on` assignments, so the
server rejects it with a syntax error before touching any row. -/
def mark_payment_statement_accepted : Bool := false

/-- Model of `Database.mark_payment` (`app/tools/db.py`): were the statement
well-formed it would advance `payment_at` of every row of `user_id` by
`month_paid` months and stamp `paid_on` with `datetime.now()`; as the
statement is rejected, the exception is caught and
`cursor.rowcount > 0` (rowcount stays -1) reports failure with the
ledger untouched. -/
def mark_payment (db : DBState) (user_id : Int) (month_paid : Int) (now : PyDateTime) :
    Bool × DBState :=
  if mark_payment_statement_accepted then
    (db.payments.any (fun p => p.user_id == user_id),
     { db with payments := db.payments.map (fun p =>
         if p.user_id == user_id then
           { p with payment_at := addMonths p.payment_at month_paid, paid_on := now }
         else p) })
  else
    (false, db)

/-! ## The unpaid report of `Database.get_unpaid_group` -/

/-- Model of `EXTRACT(DAY FROM CURRENT_DATE - p.payment_at)`: PostgreSQL
subtracts the two timestamps (`CURRENT_DATE` is midnight of `now`'s
date) into an interval whose day field is the seconds difference
truncated towards zero at 86400-second granularity. -/
def extractDayDiff (now : PyDateTime) (t : PyDateTime) : Int :=
  Int.tdiv (dayNumber now * 86400 - (dayNumber t * 86400 + (t.sec : Int))) 86400

/-- A row of the inner sub-select
`payments p INNER JOIN users u ON p.user_id = u.user_id`. -/
structure SubRow where
  group_id : Int
  username : String
  payment_at : PyDateTime
  diff : Int
deriving DecidableEq, Repr

/-- A row of `groups g INNER JOIN (...) sub ON g.group_id = sub.group_id`
before the window filter. -/
structure JRow where
  group_id : Int
  group_name : String
  username : String
  payment_at : PyDateTime
  diff : Int
deriving DecidableEq, Repr

/-- The sub-select of `get_unpaid_group`: every payment row joined with
its user, carrying `diff = EXTRACT(DAY FROM CURRENT_DATE - payment_at)`. -/
def subRows (now : PyDateTime) (db : DBState) : List SubRow :=
  db.payments.flatMap (fun p =>
    (db.users.filter (fun u => u.user_id == p.user_id)).map (fun u =>
      ⟨p.group_id, u.username, p.payment_at, extractDayDiff now p.payment_at⟩))

/-- The join of `groups` with the sub-select on `group_id`. -/
def joinedRows (now : PyDateTime) (db : DBState) : List JRow :=
  db.groups.flatMap (fun g =>
    ((subRows now db).filter (fun s => g.group_id == s.group_id)).map (fun s =>
      ⟨s.group_id, g.group_name, s.username, s.payment_at, s.diff⟩))

/-- SQL aggregate `MAX` over a bag of values (`none` on the empty bag). -/
def listMax : List Int → Option Int
  | [] => none
  | d :: ds =>
    match listMax ds with
    | none => some d
    | some m => some (max d m)

/-- Model of `MAX(sub.diff) OVER (PARTITION BY sub.group_id) >= 0`: the window
maximum of `diff` over the joined rows of one group, compared with 0. -/
def maxDiffOk (rows : List JRow) (gid : Int) : Bool :=
  match listMax ((rows.filter (fun r => r.group_id == gid)).map (fun r => r.diff)) with
  | some m => decide (0 ≤ m)
  | none => false

/-- Model of `Database.get_unpaid_group` (`app/tools/db.py`): keep the joined
rows whose group's window-maximum `diff` is at least 0 and project
`(group_name, username, payment_at, paid, diff)` with
`paid = (diff < 0)`. -/
def get_unpaid_group (now : PyDateTime) (db : DBState) :
    List (String × String × PyDateTime × Bool × Int) :=
  let j := joinedRows now db
  (j.filter (fun r => maxDiffOk j r.group_id)).map (fun r =>
    (r.group_name, r.username, r.payment_at, decide (r.diff < 0), r.diff))

/-! ## Dialogue state machine (`app/routers/admin.py` with the aiogram
states of `app/tools/forms.py`) -/

/-- The aiogram FSM states reachable in the admin router: the steps of
`LinkForm`, `DeleteForm` and `SettingsForm`. -/
inductive FsmState where
  | linkUsername
  | linkGroupName
  | linkPaymentAt
  | linkConfirm
  | deleteTarget
  | deleteValue
  | deleteConfirm
  | settingsTarget
  | settingsValue
  | settingsConfirm
deriving DecidableEq, Repr

/-- The values the link flow stores under `previous_state`: the
collection step most recently confirmed (`process_username`,
`process_group_name` and `process_payment_at` each record their own
state there). -/
inductive LinkPrev where
  | username
  | group_name
  | payment_at
deriving DecidableEq, Repr

/-- The collection state corresponding to a recorded `previous_state`. -/
def LinkPrev.toState : LinkPrev → FsmState
  | .username => .linkUsername
  | .group_name => .linkGroupName
  | .payment_at => .linkPaymentAt

/-- The accumulator of the link form (`state.update_data` keys). -/
structure LinkData where
  user_id : Option Int
  group_id : Option Int
  payment_at : Option PyDateTime
  previous_state : Option LinkPrev
deriving DecidableEq, Repr

/-- The accumulator of the delete form (`state.update_data` keys). -/
structure DeleteData where
  target : Option String
  value : Option String
deriving DecidableEq, Repr

/-- Result of one handler turn: the session's next state (`none` after
`state.clear()`), the accumulator, and whether the ledger commit
(`link_user_to_group` / `delete_user` / `delete_group`) was invoked this
turn. -/
structure TurnResult (δ : Type) where
  next : Option FsmState
  data : δ
  committed : Bool
deriving DecidableEq, Repr

/-- Model of `confirm_link_form` (`app/routers/admin.py`): `response =
message.text.lower().strip()`; reading `data['previous_state']` raises
`KeyError` when absent (modelled as `none`).  On "yes" the flow advances
(the `group_name` branch also reads `data['payment_at']`, raising when
absent); on "no" it rewinds with `state.set_state(previous_state)`;
anything else clears the session. -/
def confirm_link_form (text : String) (data : LinkData) : Option (TurnResult LinkData) :=
  match data.previous_state with
  | none => none
  | some prev =>
    let response := pyStrip (pyLower text)
    if response == "yes" then
      match prev with
      | .username => some ⟨some .linkGroupName, data, false⟩
      | .group_name =>
        match data.payment_at with
        | none => none
        | some _ => some ⟨some .linkPaymentAt, data, false⟩
      | .payment_at => some ⟨none, data, true⟩
    else if response == "no" then
      some ⟨some prev.toState, data, false⟩
    else
      some ⟨none, data, false⟩

/-- Model of `confirm_delete_form` (`app/routers/admin.py`): on "yes" the delete
of `data['value']` is dispatched by `data['target']` and the session is
cleared; on "no" the session is sent back to `DeleteForm.value`; any
other response clears the session. -/
def confirm_delete_form (text : String) (data : DeleteData) : Option (TurnResult DeleteData) :=
  let response := pyStrip (pyLower text)
  if response == "yes" then
    match data.target with
    | none => none
    | some t =>
      if t == "user" || t == "group" then
        match data.value with
        | none => none
        | some _ => some ⟨none, data, true⟩
      else
        some ⟨none, data, false⟩
  else if response == "no" then
    some ⟨some .deleteValue, data, false⟩
  else
    some ⟨none, data, false⟩

/-- Model of `process_delete_target` (`app/routers/admin.py`): `target =
message.text.strip().lower()`; "user" and "group" store the target and
advance to `DeleteForm.value`; anything else answers "There are no
settings named ..." and performs `state.set_state(SettingsForm.target)`
before returning. -/
def process_delete_target (text : String) (data : DeleteData) : TurnResult DeleteData :=
  let target := pyLower (pyStrip text)
  if target == "user" then
    ⟨some .deleteValue, { data with target := some target }, false⟩
  else if target == "group" then
    ⟨some .deleteValue, { data with target := some target }, false⟩
  else
    ⟨some .settingsTarget, data, false⟩

/-! ## Helper lemmas -/

/-- The truncated day field of an interval `m` days minus `s` seconds
(with `s` inside one day) is nonnegative exactly when `m` is. -/
theorem tdiv_day_sign (m : Int) (s : Nat) (hs : s < 86400) :
    0 ≤ Int.tdiv (m * 86400 - (s : Int)) 86400 ↔ 0 ≤ m := by
  constructor
  · intro h
    by_contra hm
    push_neg at hm
    have hm1 : m ≤ -1 := by omega
    have htlt : m * 86400 - (s : Int) < 0 := by omega
    obtain ⟨k, hk⟩ : ∃ k : Nat, m * 86400 - (s : Int) = Int.negSucc k := by
      cases h2 : m * 86400 - (s : Int) with
      | ofNat n => rw [h2] at htlt; rw [Int.ofNat_eq_natCast] at htlt; omega
      | negSucc k => exact ⟨k, rfl⟩
    have hbig : 86400 ≤ k + 1 := by rw [Int.negSucc_eq] at hk; omega
    have hone : 1 ≤ (k + 1) / 86400 := (Nat.one_le_div_iff (by norm_num)).mpr hbig
    rw [hk] at h
    have hred : Int.tdiv (Int.negSucc k) (86400 : Int) = -Int.ofNat ((k + 1) / 86400) := rfl
    rw [hred, Int.ofNat_eq_natCast] at h
    omega
  · intro hm
    by_cases h0 : m = 0
    · subst h0
      by_cases hz : s = 0
      · subst hz
        decide
      · have hk : (0 : Int) * 86400 - (s : Int) = Int.negSucc (s - 1) := by
          rw [Int.negSucc_eq]; omega
        rw [hk]
        have hred : Int.tdiv (Int.negSucc (s - 1)) (86400 : Int)
            = -Int.ofNat ((s - 1 + 1) / 86400) := rfl
        rw [hred]
        have : (s - 1 + 1) / 86400 = 0 := Nat.div_eq_of_lt (by omega)
        rw [this]
        decide
    · have hm1 : 1 ≤ m := by omega
      have hk : m * 86400 - (s : Int) = Int.ofNat ((m * 86400 - (s : Int)).toNat) := by
        rw [Int.ofNat_eq_natCast]; omega
      rw [hk]
      have hred : Int.tdiv (Int.ofNat ((m * 86400 - (s : Int)).toNat)) (86400 : Int)
          = Int.ofNat ((m * 86400 - (s : Int)).toNat / 86400) := rfl
      rw [hred, Int.ofNat_eq_natCast]
      omega

/-- The quantity `EXTRACT(DAY FROM CURRENT_DATE - t)` is nonnegative exactly when the
calendar-date difference `now.date - t.date` in whole days is. -/
theorem extractDayDiff_nonneg_iff (now t : PyDateTime) (ht : t.sec < 86400) :
    0 ≤ extractDayDiff now t ↔ 0 ≤ dayNumber now - dayNumber t := by
  have harg : dayNumber now * 86400 - (dayNumber t * 86400 + (t.sec : Int))
      = (dayNumber now - dayNumber t) * 86400 - (t.sec : Int) := by ring
  rw [extractDayDiff, harg]
  exact tdiv_day_sign (dayNumber now - dayNumber t) t.sec ht

/-- Negative version of `extractDayDiff_nonneg_iff`. -/
theorem extractDayDiff_neg_iff (now t : PyDateTime) (ht : t.sec < 86400) :
    extractDayDiff now t < 0 ↔ dayNumber now - dayNumber t < 0 := by
  have h := extractDayDiff_nonneg_iff now t ht
  omega

theorem listMax_eq_none_iff (l : List Int) : listMax l = none ↔ l = [] := by
  cases l with
  | nil => simp [listMax]
  | cons d ds =>
    simp only [listMax]
    cases listMax ds <;> simp

theorem listMax_mem {l : List Int} {m : Int} (h : listMax l = some m) : m ∈ l := by
  induction l generalizing m with
  | nil => simp [listMax] at h
  | cons d ds ih =>
    simp only [listMax] at h
    cases h2 : listMax ds with
    | none => rw [h2] at h; simp at h; simp [h]
    | some m' =>
      rw [h2] at h
      simp at h
      rcases max_choice d m' with hc | hc
      · rw [← h, hc]; exact List.mem_cons_self d ds
      · rw [← h, hc]; exact List.mem_cons_of_mem d (ih h2)

theorem le_listMax {l : List Int} {m : Int} (h : listMax l = some m) :
    ∀ d ∈ l, d ≤ m := by
  induction l generalizing m with
  | nil => simp
  | cons d0 ds ih =>
    intro d hd
    simp only [listMax] at h
    cases h2 : listMax ds with
    | none =>
      rw [h2] at h
      simp at h
      have : ds = [] := (listMax_eq_none_iff ds).mp h2
      subst this
      simp at hd
      omega
    | some m' =>
      rw [h2] at h
      simp at h
      rcases List.mem_cons.mp hd with hc | hc
      · subst hc; rw [← h]; exact le_max_left d m'
      · calc d ≤ m' := ih h2 d hc
          _ ≤ max d0 m' := le_max_right d0 m'
          _ = m := h

/-- The window-filter test succeeds for a group exactly when some joined
row of that group has nonnegative `diff`. -/
theorem maxDiffOk_iff (rows : List JRow) (gid : Int) :
    maxDiffOk rows gid = true ↔ ∃ r ∈ rows, r.group_id = gid ∧ 0 ≤ r.diff := by
  constructor
  · intro h
    simp only [maxDiffOk] at h
    cases h2 : listMax ((rows.filter (fun r => r.group_id == gid)).map (fun r => r.diff)) with
    | none => rw [h2] at h; simp at h
    | some m =>
      rw [h2] at h
      simp at h
      have hmem := listMax_mem h2
      rcases List.mem_map.mp hmem with ⟨r, hr, hdiff⟩
      rcases List.mem_filter.mp hr with ⟨hrmem, hrgid⟩
      exact ⟨r, hrmem, by simpa using hrgid, by omega⟩
  · rintro ⟨r, hr, hgid, hdiff⟩
    simp only [maxDiffOk]
    have hmem : r.diff ∈ (rows.filter (fun r => r.group_id == gid)).map (fun r => r.diff) :=
      List.mem_map.mpr ⟨r, List.mem_filter.mpr ⟨hr, by simpa using hgid⟩, rfl⟩
    cases h2 : listMax ((rows.filter (fun r => r.group_id == gid)).map (fun r => r.diff)) with
    | none =>
      rw [listMax_eq_none_iff] at h2
      rw [h2] at hmem
      simp at hmem
    | some m =>
      have := le_listMax h2 _ hmem
      simp
      omega

/-- Characterisation of the sub-select rows. -/
theorem mem_subRows (now : PyDateTime) (db : DBState) (s : SubRow) :
    s ∈ subRows now db ↔
      ∃ p ∈ db.payments, ∃ u ∈ db.users, u.user_id = p.user_id ∧
        s = ⟨p.group_id, u.username, p.payment_at, extractDayDiff now p.payment_at⟩ := by
  simp only [subRows, List.mem_flatMap, List.mem_map, List.mem_filter, beq_iff_eq]
  constructor
  · rintro ⟨p, hp, u, ⟨hu, hid⟩, rfl⟩
    exact ⟨p, hp, u, hu, hid, rfl⟩
  · rintro ⟨p, hp, u, hu, hid, rfl⟩
    exact ⟨p, hp, u, ⟨hu, hid⟩, rfl⟩

/-- Characterisation of the joined rows. -/
theorem mem_joinedRows (now : PyDateTime) (db : DBState) (r : JRow) :
    r ∈ joinedRows now db ↔
      ∃ g ∈ db.groups, ∃ p ∈ db.payments, ∃ u ∈ db.users,
        u.user_id = p.user_id ∧ g.group_id = p.group_id ∧
        r = ⟨p.group_id, g.group_name, u.username, p.payment_at,
              extractDayDiff now p.payment_at⟩ := by
  simp only [joinedRows, List.mem_flatMap, List.mem_map, List.mem_filter, beq_iff_eq]
  constructor
  · rintro ⟨g, hg, s, ⟨hs, hgid⟩, rfl⟩
    rcases (mem_subRows now db s).mp hs with ⟨p, hp, u, hu, hid, rfl⟩
    exact ⟨g, hg, p, hp, u, hu, hid, hgid, rfl⟩
  · rintro ⟨g, hg, p, hp, u, hu, hid, hgid, rfl⟩
    refine ⟨g, hg, ⟨p.group_id, u.username, p.payment_at, extractDayDiff now p.payment_at⟩,
      ⟨(mem_subRows now db _).mpr ⟨p, hp, u, hu, hid, rfl⟩, hgid⟩, rfl⟩

/-- Claim C2: a member row of a group appears in `get_unpaid_group` exactly
when some linked member of that group has a nonnegative calendar-day
difference `now.date - payment_at.date`; and every emitted row's `paid`
flag is true exactly when that member's day difference is negative. -/
theorem get_unpaid_group_inclusion (now : PyDateTime) (db : DBState)
    (hsec : ∀ p ∈ db.payments, p.payment_at.sec < 86400)
    (hnames : (db.groups.map (fun g => g.group_name)).Nodup) :
    (∀ g ∈ db.groups, ∀ p ∈ db.payments, ∀ u ∈ db.users,
        u.user_id = p.user_id → g.group_id = p.group_id →
        ((g.group_name, u.username, p.payment_at,
            decide (extractDayDiff now p.payment_at < 0),
            extractDayDiff now p.payment_at) ∈ get_unpaid_group now db ↔
          ∃ p' ∈ db.payments, p'.group_id = g.group_id ∧
            (∃ u' ∈ db.users, u'.user_id = p'.user_id) ∧
            0 ≤ dayNumber now - dayNumber p'.payment_at)) ∧
    (∀ gname uname pat paid diff,
        (gname, uname, pat, paid, diff) ∈ get_unpaid_group now db →
        (paid = true ↔ dayNumber now - dayNumber pat < 0)) := by
  constructor
  · intro g hg p hp u hu huid hgid
    constructor
    · intro hmem
      simp only [get_unpaid_group, List.mem_map, List.mem_filter] at hmem
      obtain ⟨r, ⟨hrj, hrok⟩, hout⟩ := hmem
      simp only [Prod.mk.injEq] at hout
      obtain ⟨hgname, _, _, _, _⟩ := hout
      obtain ⟨g2, hg2, p2, hp2, u2, hu2, hid2, hgid2, hreq⟩ := (mem_joinedRows now db r).mp hrj
      have hsame : g2 = g := by
        apply List.inj_on_of_nodup_map hnames hg2 hg
        rw [← hgname, hreq]
      have hrgid : r.group_id = g.group_id := by
        rw [hreq]
        show p2.group_id = g.group_id
        rw [← hgid2, hsame]
      obtain ⟨r', hr'j, hr'gid, hr'diff⟩ := (maxDiffOk_iff (joinedRows now db) r.group_id).mp hrok
      obtain ⟨g3, hg3, p3, hp3, u3, hu3, hid3, hgid3, hreq3⟩ := (mem_joinedRows now db r').mp hr'j
      refine ⟨p3, hp3, ?_, ⟨u3, hu3, hid3⟩, ?_⟩
      · rw [← hrgid, ← hr'gid, hreq3]
      · have : 0 ≤ extractDayDiff now p3.payment_at := by
          have : r'.diff = extractDayDiff now p3.payment_at := by rw [hreq3]
          omega
        exact (extractDayDiff_nonneg_iff now p3.payment_at (hsec p3 hp3)).mp this
    · rintro ⟨p', hp', hgid', ⟨u', hu', huid'⟩, hday⟩
      have hr : (⟨p.group_id, g.group_name, u.username, p.payment_at,
          extractDayDiff now p.payment_at⟩ : JRow) ∈ joinedRows now db :=
        (mem_joinedRows now db _).mpr ⟨g, hg, p, hp, u, hu, huid, hgid, rfl⟩
      have hr' : (⟨p'.group_id, g.group_name, u'.username, p'.payment_at,
          extractDayDiff now p'.payment_at⟩ : JRow) ∈ joinedRows now db :=
        (mem_joinedRows now db _).mpr ⟨g, hg, p', hp', u', hu', huid', hgid'.symm, rfl⟩
      have hdiff' : 0 ≤ extractDayDiff now p'.payment_at :=
        (extractDayDiff_nonneg_iff now p'.payment_at (hsec p' hp')).mpr hday
      have hok : maxDiffOk (joinedRows now db) p.group_id = true :=
        (maxDiffOk_iff _ _).mpr
          ⟨⟨p'.group_id, g.group_name, u'.username, p'.payment_at,
              extractDayDiff now p'.payment_at⟩, hr',
            by show p'.group_id = p.group_id; rw [hgid']; exact hgid, hdiff'⟩
      simp only [get_unpaid_group, List.mem_map, List.mem_filter]
      exact ⟨⟨p.group_id, g.group_name, u.username, p.payment_at,
          extractDayDiff now p.payment_at⟩, ⟨hr, hok⟩, rfl⟩
  · intro gname uname pat paid diff hmem
    simp only [get_unpaid_group, List.mem_map, List.mem_filter] at hmem
    obtain ⟨r, ⟨hrj, _⟩, hout⟩ := hmem
    simp only [Prod.mk.injEq] at hout
    obtain ⟨_, _, hpat, hpaid, _⟩ := hout
    obtain ⟨g2, hg2, p2, hp2, u2, hu2, hid2, hgid2, hreq⟩ := (mem_joinedRows now db r).mp hrj
    have hrpat : r.payment_at = p2.payment_at := by rw [hreq]
    have hrdiff : r.diff = extractDayDiff now p2.payment_at := by rw [hreq]
    rw [← hpaid, ← hpat, hrpat, hrdiff]
    rw [decide_eq_true_iff]
    exact extractDayDiff_neg_iff now p2.payment_at (hsec p2 hp2)

/-- Witness for claim C2 on a concrete ledger: group "g" has member
alice due yesterday (day difference 1) and member bob due next month
(day difference negative); bob's row is listed exactly because alice is
overdue. -/
theorem get_unpaid_group_inclusion_witness :
    (∀ p ∈ (⟨[⟨10, "alice"⟩, ⟨11, "bob"⟩], [⟨1, "g", ⟨2025, 6, 15, 0⟩⟩],
        [⟨1, 10, ⟨2025, 6, 14, 0⟩, ⟨2025, 6, 15, 0⟩⟩,
         ⟨1, 11, ⟨2025, 7, 15, 0⟩, ⟨2025, 6, 15, 0⟩⟩]⟩ : DBState).payments,
      p.payment_at.sec < 86400) ∧
    ((⟨[⟨10, "alice"⟩, ⟨11, "bob"⟩], [⟨1, "g", ⟨2025, 6, 15, 0⟩⟩],
        [⟨1, 10, ⟨2025, 6, 14, 0⟩, ⟨2025, 6, 15, 0⟩⟩,
         ⟨1, 11, ⟨2025, 7, 15, 0⟩, ⟨2025, 6, 15, 0⟩⟩]⟩ : DBState).groups.map
        (fun g => g.group_name)).Nodup ∧
    (("g", "bob", (⟨2025, 7, 15, 0⟩ : PyDateTime),
        decide (extractDayDiff ⟨2025, 6, 15, 0⟩ ⟨2025, 7, 15, 0⟩ < 0),
        extractDayDiff ⟨2025, 6, 15, 0⟩ ⟨2025, 7, 15, 0⟩) ∈
          get_unpaid_group ⟨2025, 6, 15, 0⟩
            ⟨[⟨10, "alice"⟩, ⟨11, "bob"⟩], [⟨1, "g", ⟨2025, 6, 15, 0⟩⟩],
              [⟨1, 10, ⟨2025, 6, 14, 0⟩, ⟨2025, 6, 15, 0⟩⟩,
               ⟨1, 11, ⟨2025, 7, 15, 0⟩, ⟨2025, 6, 15, 0⟩⟩]⟩ ↔
      ∃ p' ∈ (⟨[⟨10, "alice"⟩, ⟨11, "bob"⟩], [⟨1, "g", ⟨2025, 6, 15, 0⟩⟩],
          [⟨1, 10, ⟨2025, 6, 14, 0⟩, ⟨2025, 6, 15, 0⟩⟩,
           ⟨1, 11, ⟨2025, 7, 15, 0⟩, ⟨2025, 6, 15, 0⟩⟩]⟩ : DBState).payments,
        p'.group_id = 1 ∧
        (∃ u' ∈ (⟨[⟨10, "alice"⟩, ⟨11, "bob"⟩], [⟨1, "g", ⟨2025, 6, 15, 0⟩⟩],
            [⟨1, 10, ⟨2025, 6, 14, 0⟩, ⟨2025, 6, 15, 0⟩⟩,
             ⟨1, 11, ⟨2025, 7, 15, 0⟩, ⟨2025, 6, 15, 0⟩⟩]⟩ : DBState).users,
          u'.user_id = p'.user_id) ∧
        0 ≤ dayNumber ⟨2025, 6, 15, 0⟩ - dayNumber p'.payment_at) :=
  ⟨by decide, by decide,
    (get_unpaid_group_inclusion ⟨2025, 6, 15, 0⟩
        ⟨[⟨10, "alice"⟩, ⟨11, "bob"⟩], [⟨1, "g", ⟨2025, 6, 15, 0⟩⟩],
          [⟨1, 10, ⟨2025, 6, 14, 0⟩, ⟨2025, 6, 15, 0⟩⟩,
           ⟨1, 11, ⟨2025, 7, 15, 0⟩, ⟨2025, 6, 15, 0⟩⟩]⟩
        (by decide) (by decide)).1
      ⟨1, "g", ⟨2025, 6, 15, 0⟩⟩ (by decide)
      ⟨1, 11, ⟨2025, 7, 15, 0⟩, ⟨2025, 6, 15, 0⟩⟩ (by decide)
      ⟨11, "bob"⟩ (by decide) rfl rfl⟩

/-- Claim C1 (refutation by execution): in the spec's end-to-end
scenario — `add_group(5, "spotify 005", 2025-01-01)` when `now` is
2025-06-15 — the rollover computes `relativedelta(payment_at, now)`
(the operands in that order give months = -5), so `total_months` is -4
and the stored `payment_at` is 2024-09-01: four months further into the
past, strictly before `now`, and not the 2025-07-01 the claim states. -/
theorem add_group_past_date_moves_backward :
    (add_group ⟨2025, 6, 15, 0⟩ emptyDB 5 "spotify 005" ⟨2025, 1, 1, 0⟩).2.groups
      = [⟨5, "spotify 005", ⟨2024, 9, 1, 0⟩⟩] ∧
    pyLtB ⟨2024, 9, 1, 0⟩ ⟨2025, 6, 15, 0⟩ = true ∧
    (⟨2024, 9, 1, 0⟩ : PyDateTime) ≠ ⟨2025, 7, 1, 0⟩ := by
  refine ⟨?_, by decide, by decide⟩
  decide

/-- Claim C3: when the supplied due date is not strictly before `now`,
the rollover branch of `add_group` and of `add_payments` is not taken,
and any row the call stores carries the supplied `payment_at`
unchanged. -/
theorem add_ops_keep_future_date (db : DBState) (gid uid : Int) (gname : String)
    (d now : PyDateTime) (h : pyLtB d now = false) :
    (∀ g ∈ (add_group now db gid gname d).2.groups,
        g ∈ db.groups ∨ g.payment_at = d) ∧
    (∀ p ∈ (add_payments now db uid gid d).2.payments,
        p ∈ db.payments ∨ p.payment_at = d) := by
  have hro : rollover d now = d := by simp [rollover, h]
  constructor
  · intro g hg
    simp only [add_group, hro] at hg
    split at hg
    · exact Or.inl hg
    · rcases List.mem_append.mp hg with hin | hnew
      · exact Or.inl hin
      · simp at hnew
        exact Or.inr (by rw [hnew])
  · intro p hp
    simp only [add_payments, hro] at hp
    split at hp
    · exact Or.inl hp
    · rcases List.mem_append.mp hp with hin | hnew
      · exact Or.inl hin
      · simp at hnew
        exact Or.inr (by rw [hnew])

/-- Witness for claim C3: a due date two weeks after `now` is stored
exactly as supplied by `add_group`. -/
theorem add_ops_keep_future_date_witness :
    pyLtB ⟨2025, 7, 1, 0⟩ ⟨2025, 6, 15, 30⟩ = false ∧
    ((⟨1, "spotify 001", ⟨2025, 7, 1, 0⟩⟩ : GroupRow) ∈
        (add_group ⟨2025, 6, 15, 30⟩ emptyDB 1 "spotify 001" ⟨2025, 7, 1, 0⟩).2.groups →
      (⟨1, "spotify 001", ⟨2025, 7, 1, 0⟩⟩ : GroupRow) ∈ emptyDB.groups ∨
      (⟨1, "spotify 001", ⟨2025, 7, 1, 0⟩⟩ : GroupRow).payment_at = ⟨2025, 7, 1, 0⟩) :=
  ⟨by decide, fun hmem =>
    (add_ops_keep_future_date emptyDB 1 2 "spotify 001" ⟨2025, 7, 1, 0⟩
      ⟨2025, 6, 15, 30⟩ (by decide)).1 _ hmem⟩

/-- Claim C4 (refutation by execution): the guard of
`update_group_name` is `isinstance(new_group_name, str) or
len(new_group_name) == 0`, which holds for every string, so the
function returns failure for every string argument — empty or not,
existing group or not — and never executes the UPDATE. -/
theorem update_group_name_rejects_every_string (db : DBState) (gid : Int) (s : String) :
    update_group_name db gid (some s) = some (false, db) := by
  simp [update_group_name, isinstance_str]

/-- Claim C5 (refutation by execution): the UPDATE of `mark_payment`
lacks the comma between its two SET assignments, so the statement is
rejected by the server, the exception is swallowed, and the call
returns failure with the ledger unchanged for every input — no
`payment_at` is ever advanced and no `paid_on` is ever stamped. -/
theorem mark_payment_never_updates (db : DBState) (uid m : Int) (now : PyDateTime) :
    mark_payment db uid m now = (false, db) := by
  simp [mark_payment, mark_payment_statement_accepted]

/-- Claim C9 (refutation by execution): at `DeleteForm.target`, an
input that is neither "user" nor "group" makes `process_delete_target`
call `state.set_state(SettingsForm.target)`, so the session leaves the
delete form for the settings form's first step instead of staying at
`DeleteForm.target` (the accumulator is not mutated). -/
theorem process_delete_target_invalid_jumps_to_settings :
    process_delete_target "price" ⟨none, none⟩ =
      ⟨some FsmState.settingsTarget, ⟨none, none⟩, false⟩ ∧
    FsmState.settingsTarget ≠ FsmState.deleteTarget := by
  refine ⟨?_, by decide⟩
  decide

/-- Claim C10: `connect` returns exactly `self.pool is None` — `true`
when no pool was established (any creation error having been
swallowed), `false` when the pool is usable. -/
theorem connect_returns_true_iff_no_pool :
    ∀ (α : Type) (pool attempt : Option α),
      ((connect pool attempt).1 = true ↔ (connect pool attempt).2 = none) ∧
      (∀ p : α, (connect pool (some p)).1 = false) ∧
      (connect (none : Option α) none).1 = true := by
  intro α pool attempt
  refine ⟨?_, ?_, ?_⟩
  · cases attempt <;> cases pool <;> simp [connect]
  · intro p
    simp [connect]
  · simp [connect]

/-- Counterexample to claim C6: with user (111, "user") stored, an
empty new username makes `update_username` return success and write the
empty string into the row (the stored username changes), while a `None`
new username returns failure — neither is the claimed
"success with no write". -/
theorem update_username_claim_counterexample :
    (update_username ⟨[⟨111, "user"⟩], [], []⟩ 111 (some "")).1 = true ∧
    (update_username ⟨[⟨111, "user"⟩], [], []⟩ 111 (some "")).2.users = [⟨111, ""⟩] ∧
    update_username ⟨[⟨111, "user"⟩], [], []⟩ 111 none =
      (false, ⟨[⟨111, "user"⟩], [], []⟩) := by
  refine ⟨by decide, by decide, ?_⟩
  rfl

/-- Claim C6 as amended: a `None` new username returns failure and
performs no write (the swallowed attribute error leaves rowcount at
-1); for a string new username — empty included — the UPDATE is
executed: when the normalized name (every `'@'` removed) is already
held by a different user, the `username` UNIQUE constraint makes the
call fail with no write; otherwise, for an existing user, the call
succeeds and the stored username becomes the normalized name. -/
theorem update_username_amended (db : DBState) (uid : Int) (s : String)
    (u : UserRow) (hu : u ∈ db.users) (hid : u.user_id = uid) :
    update_username db uid none = (false, db) ∧
    ((∃ w ∈ db.users, w.user_id ≠ uid ∧ w.username = py_replace_at s) →
      update_username db uid (some s) = (false, db)) ∧
    ((∀ w ∈ db.users, w.user_id ≠ uid → w.username ≠ py_replace_at s) →
      (update_username db uid (some s)).1 = true ∧
      ∀ v ∈ (update_username db uid (some s)).2.users,
        v.user_id = uid → v.username = py_replace_at s) := by
  have h1 : db.users.any (fun v => v.user_id == uid) = true :=
    List.any_eq_true.mpr ⟨u, hu, by simp [hid]⟩
  refine ⟨rfl, ?_, ?_⟩
  · rintro ⟨w, hw, hne, hname⟩
    have h2 : db.users.any (fun v => v.user_id != uid && v.username == py_replace_at s)
        = true :=
      List.any_eq_true.mpr ⟨w, hw, by simp [hne, hname]⟩
    simp [update_username, h1, h2]
  · intro hfree
    have h2 : db.users.any (fun v => v.user_id != uid && v.username == py_replace_at s)
        = false := by
      by_contra hc
      rw [Bool.not_eq_false, List.any_eq_true] at hc
      obtain ⟨w, hw, hcw⟩ := hc
      simp at hcw
      exact (hfree w hw hcw.1) hcw.2
    refine ⟨?_, ?_⟩
    · simp [update_username, h2, h1]
    · intro v hv hvid
      simp only [update_username, h2, Bool.and_false, if_false] at hv
      rcases List.mem_map.mp hv with ⟨w, hw, rfl⟩
      by_cases hcond : w.user_id == uid
      · simp [hcond]
      · simp only [hcond, if_false] at hvid ⊢
        simp at hcond
        exact absurd hvid hcond

/-- Witness for the amended claim C6: on a ledger with users
(111, "user") and (222, "x"), renaming user 111 to "x" hits the
uniqueness collision and fails with no write, while renaming it to "y"
succeeds. -/
theorem update_username_amended_witness :
    (⟨111, "user"⟩ : UserRow) ∈
      (⟨[⟨111, "user"⟩, ⟨222, "x"⟩], [], []⟩ : DBState).users ∧
    (⟨111, "user"⟩ : UserRow).user_id = 111 ∧
    (∃ w ∈ (⟨[⟨111, "user"⟩, ⟨222, "x"⟩], [], []⟩ : DBState).users,
      w.user_id ≠ 111 ∧ w.username = py_replace_at "x") ∧
    update_username ⟨[⟨111, "user"⟩, ⟨222, "x"⟩], [], []⟩ 111 (some "x") =
      (false, ⟨[⟨111, "user"⟩, ⟨222, "x"⟩], [], []⟩) ∧
    (∀ w ∈ (⟨[⟨111, "user"⟩, ⟨222, "x"⟩], [], []⟩ : DBState).users,
      w.user_id ≠ 111 → w.username ≠ py_replace_at "y") ∧
    (update_username ⟨[⟨111, "user"⟩, ⟨222, "x"⟩], [], []⟩ 111 (some "y")).1 = true :=
  ⟨by decide, rfl, by decide,
    (update_username_amended ⟨[⟨111, "user"⟩, ⟨222, "x"⟩], [], []⟩ 111 "x"
      ⟨111, "user"⟩ (by decide) rfl).2.1
      ⟨⟨222, "x"⟩, by decide, by decide, by decide⟩,
    by decide,
    ((update_username_amended ⟨[⟨111, "user"⟩, ⟨222, "x"⟩], [], []⟩ 111 "y"
      ⟨111, "user"⟩ (by decide) rfl).2.2 (by decide)).1⟩

/-- Counterexample to claim C7: `add_user(1, "bo@b")` stores "bob"
(every `'@'` is removed, not only a leading one), and
`get_user_by_name("bo@b")` finds that row because the lookup removes
every `'@'` too; a lookup that stripped only a leading `'@'` — as the
claim describes — would find nothing. -/
theorem username_lookup_strip_leading_counterexample :
    get_user_by_name (add_user emptyDB 1 "bo@b").2 "bo@b" = some ⟨1, "bob"⟩ ∧
    get_user_by_name_spec (add_user emptyDB 1 "bo@b").2 "bo@b" = none := by
  refine ⟨?_, ?_⟩ <;> rfl

/-- Claim C7 as amended: username lookup normalizes its argument by
removing every `'@'` character (the same normalization `add_user`
applies before storing) and compares case-sensitively with the stored
value; in particular after `add_user(1, "@bob")`, both
`get_user_by_name("bob")` and `get_user_by_name("@bob")` return the
row `add_user` created. -/
theorem username_lookup_removes_all_ats :
    (∀ (db : DBState) (s : String), get_user_by_name db ("@" ++ s) = get_user_by_name db s) ∧
    (get_user_by_name (add_user emptyDB 1 "@bob").2 "bob" = some ⟨1, "bob"⟩ ∧
     get_user_by_name (add_user emptyDB 1 "@bob").2 "@bob" = some ⟨1, "bob"⟩) := by
  refine ⟨?_, by decide, by decide⟩
  intro db s
  have hnorm : py_replace_at ("@" ++ s) = py_replace_at s := by
    obtain ⟨l⟩ := s
    rfl
  rw [get_user_by_name, get_user_by_name, hnorm]

/-- Claim C8: answering "no" at the confirm pseudostate sends the link
session back to exactly the step recorded in `previous_state` — the
step just confirmed — with the accumulator untouched, and sends the
delete session back to `DeleteForm.value`, the single collection step
its confirm follows, with the accumulator untouched. -/
theorem confirm_no_rewinds_to_confirmed_step :
    (∀ (text : String) (data : LinkData) (prev : LinkPrev),
        pyStrip (pyLower text) = "no" → data.previous_state = some prev →
        confirm_link_form text data = some ⟨some prev.toState, data, false⟩) ∧
    (∀ (text : String) (data : DeleteData),
        pyStrip (pyLower text) = "no" →
        confirm_delete_form text data = some ⟨some FsmState.deleteValue, data, false⟩) := by
  constructor
  · intro text data prev hno hprev
    simp [confirm_link_form, hprev, hno]
  · intro text data hno
    simp [confirm_delete_form, hno]

/-- Witness for claim C8: after confirming the group-name step of the
link form (step 2, not the first step), answering "no" returns the
session to the group-name step with the accumulated user id intact;
same check for the delete form. -/
theorem confirm_no_rewinds_witness :
    pyStrip (pyLower "no") = "no" ∧
    (⟨some 7, none, none, some LinkPrev.group_name⟩ : LinkData).previous_state
      = some LinkPrev.group_name ∧
    confirm_link_form "no" ⟨some 7, none, none, some LinkPrev.group_name⟩ =
      some ⟨some FsmState.linkGroupName,
        ⟨some 7, none, none, some LinkPrev.group_name⟩, false⟩ ∧
    confirm_delete_form "no" ⟨some "user", some "@bob"⟩ =
      some ⟨some FsmState.deleteValue, ⟨some "user", some "@bob"⟩, false⟩ :=
  ⟨by decide, rfl,
    (confirm_no_rewinds_to_confirmed_step.1 "no"
      ⟨some 7, none, none, some LinkPrev.group_name⟩ LinkPrev.group_name
      (by decide) rfl),
    (confirm_no_rewinds_to_confirmed_step.2 "no" ⟨some "user", some "@bob"⟩
      (by decide))⟩
